import Mathlib

/-!
Shallow embedding of the telegram-chats-analysis repository
(`src/message.py` and `src/chat.py`) in Lean 4, together with theorems
settling the specification claims about it.

Modelling conventions:
* JSON message records become the `Record` structure.  The JSON `text`
  field may be a string or a list; `textStr = some s` models a string
  value `s`, `textStr = none` models a non-string (list) value.
* `datetime` values are modelled as integer seconds since the epoch
  (1970-01-01 being a Thursday); `date()` is floor division by 86400,
  so calendar dates are integer day numbers.  Python's `weekday()`
  (Monday = 0) on day number `d` is `(d + 3) % 7`.
* Python `dict` becomes an association list with insert-or-overwrite
  semantics preserving insertion order (as `dict` iteration does).
* `Message.reply_to`, an object reference in Python, is modelled by the
  id of the target message (`replyTo : Option Int`); traversal looks
  the id up in the chat's message map.
* `collections.Counter(s)` built from a string counts characters;
  looking up a key that is absent yields 0.  `counter s k` models that
  lookup for an arbitrary string key `k`.
* `float` second counts and medians are modelled as `ℚ`.
-/

/-- One entry of a record's `text_entities` list: `{type, text}`. -/
structure TextEntity where
  type : String
  text : String
deriving DecidableEq, Repr

/-- One entry of a record's `reactions` list:
`{type, emoji, recent: [{from, date}]}`. -/
structure ReactionRec where
  type : String
  emoji : String
  recent : List (String × Int)
deriving DecidableEq, Repr

/-- A raw message record of the exported JSON (§6 of the spec).
`textStr = some s` when the `text` field is the string `s`;
`textStr = none` when it is a non-string (entity list). -/
structure Record where
  id : Int
  type : String
  from_ : String
  fromId : Option String
  date : Int
  edited : Option Int
  replyToMessageId : Option Int
  textStr : Option String
  textEntities : List TextEntity
  reactions : List ReactionRec
deriving DecidableEq, Repr

/-- `Reaction` of `src/message.py`: an emoji together with the
`(reactor, timestamp)` events of its `recent` list. -/
structure Reaction where
  emoji : String
  from_when : List (String × Int)
deriving DecidableEq, Repr

/-- `Reaction.from_dict` of `src/message.py`. -/
def Reaction.from_dict (r : ReactionRec) : Reaction :=
  { emoji := r.emoji, from_when := r.recent }

/-- `parse_reactions` of `src/message.py`: keep only entries whose
`type` is `"emoji"`. -/
def parse_reactions (rs : List ReactionRec) : List Reaction :=
  (rs.filter (fun r => r.type == "emoji")).map Reaction.from_dict

/-- `Message` of `src/message.py`.  `replyTo` models the resolved
`reply_to` object reference by the target's id. -/
structure Message where
  id : Int
  from_ : String
  text : String
  dt : Int
  editedDt : Option Int := none
  replyToId : Option Int := none
  replyTo : Option Int := none
  otherTextEntityTypes : List String := []
  reactions : List Reaction := []
deriving DecidableEq, Repr

/-- `Message.from_dict` of `src/message.py`: the text is the literal
`text` field whenever that field is a string, otherwise the
concatenation of the `text` sub-fields of `text_entities`. -/
def Message.from_dict (r : Record) : Message :=
  { id := r.id
    from_ := r.from_
    text :=
      match r.textStr with
      | some s => s
      | none => String.join (r.textEntities.map TextEntity.text)
    dt := r.date
    editedDt := r.edited
    replyToId := r.replyToMessageId
    replyTo := none
    otherTextEntityTypes :=
      ((r.textEntities.map TextEntity.type).filter (fun tp => tp != "plain")).eraseDups
    reactions := parse_reactions r.reactions }

/-- Python `dict` insert: overwrite in place if the key exists,
append otherwise. -/
def dictInsert (m : List (Int × Message)) (k : Int) (v : Message) :
    List (Int × Message) :=
  if m.any (fun p => p.1 == k) then
    m.map (fun p => if p.1 == k then (k, v) else p)
  else
    m ++ [(k, v)]

/-- Python `dict.get`: the value at the first (only) matching key. -/
def dictGet (m : List (Int × Message)) (k : Int) : Option Message :=
  (m.find? (fun p => p.1 == k)).map Prod.snd

/-- The `messages_map` comprehension of `Chat._build_messages`:
parse every record of type `"message"` into an id-keyed map
(last-wins on id collision). -/
def buildMap (records : List Record) : List (Int × Message) :=
  (records.filter (fun r => r.type == "message")).foldl
    (fun m r =>
      let msg := Message.from_dict r
      dictInsert m msg.id msg)
    []

/-- The reply-resolution step of `Chat._build_messages`: install the
reference only when the target id is present in the map. -/
def resolveReply (m : List (Int × Message)) (msg : Message) : Message :=
  match msg.replyToId with
  | none => msg
  | some i =>
    match dictGet m i with
    | some _ => { msg with replyTo := some i }
    | none => msg

/-- `Chat._build_messages`: parse, then resolve replies, returning the
messages in map order. -/
def build_messages (records : List Record) : List Message :=
  let m := buildMap records
  (m.map Prod.snd).map (resolveReply m)

/-- `reply_chain` of `src/message.py`, with an explicit fuel bound
standing for the (absent) recursion limit: `none` means the recursion
did not finish within `fuel` steps; the source has no cycle detection,
so on a cyclic reply graph every finite fuel is exhausted. -/
def reply_chain (lookup : Int → Option Message) : Nat → Message → Option (List Message)
  | 0, _ => none
  | fuel + 1, msg =>
    match msg.replyTo with
    | none => some [msg]
    | some i =>
      match lookup i with
      | none => some [msg]
      | some tgt => (reply_chain lookup fuel tgt).map (fun rest => msg :: rest)

/-- Python `date()` on a timestamp in seconds: the day number.
Lean's `Int` division by a positive constant is floor division,
matching Python. -/
def dateOf (dt : Int) : Int := dt / 86400

/-- Python `weekday()` on a day number (Monday = 0; day 0,
1970-01-01, was a Thursday). -/
def weekday (day : Int) : Int := (day + 3) % 7

/-- The `"week"` entry of `Chat.groupby`'s `KEYMAP`:
`(x.dt - timedelta(days=x.dt.weekday())).date()`. -/
def week_key (m : Message) : Int :=
  dateOf (m.dt - 86400 * weekday (dateOf m.dt))

/-- `Chat.groupby`'s grouping loop: `grouped[KEYMAP[key](msg)].append(msg)`
over a `defaultdict(list)`, modelled as the bucket-indexed family of
lists it builds. -/
def groupby (keyfun : Message → Int) (msgs : List Message) : Int → List Message :=
  msgs.foldl
    (fun grouped m => fun k =>
      if k = keyfun m then grouped k ++ [m] else grouped k)
    (fun _ => [])

/-- `Chat.groupby "week"`. -/
def groupby_week (msgs : List Message) : Int → List Message :=
  groupby week_key msgs

/-- `Chat.get_waiting_times`: for every adjacent pair with differing
senders, append the elapsed seconds to the earlier sender's list
(`defaultdict(list)` modelled as a sender-indexed family). -/
def get_waiting_times (msgs : List Message) : String → List Int :=
  (msgs.zip msgs.tail).foldl
    (fun wt p =>
      if p.1.from_ ≠ p.2.from_ then
        fun s => if s = p.1.from_ then wt s ++ [p.2.dt - p.1.dt] else wt s
      else wt)
    (fun _ => [])

/-- The adjacent pairs of a message list whose senders differ (the
pairs that contribute a waiting-time sample). -/
def senderSwitchBoundaries (msgs : List Message) : List (Message × Message) :=
  (msgs.zip msgs.tail).filter (fun p => p.1.from_ != p.2.from_)

/-- The accumulation loop of `Chat.get_reaction_counters`: concatenate
each reaction event's emoji onto the `me` string when the reactor is
`you`, onto the `them` string otherwise. -/
def reactionStrings (msgs : List Message) (you : String) : String × String :=
  msgs.foldl
    (fun acc m =>
      m.reactions.foldl
        (fun acc2 react =>
          react.from_when.foldl
            (fun acc3 fw =>
              if fw.1 = you then (acc3.1 ++ react.emoji, acc3.2)
              else (acc3.1, acc3.2 ++ react.emoji))
            acc2)
        acc)
    ("", "")

/-- Python `Counter(s)[k]` for a string `s`: the number of characters
of `s` whose one-character string equals `k` (0 when `k` is not a
single character of `s`, e.g. for any multi-character key). -/
def counter (s : String) (k : String) : Nat :=
  (s.toList.filter (fun c => String.singleton c == k)).length

/-- `Chat.get_reaction_counters`: `(Counter(me), Counter(them))`. -/
def get_reaction_counters (msgs : List Message) (you : String) :
    (String → Nat) × (String → Nat) :=
  (counter (reactionStrings msgs you).1, counter (reactionStrings msgs you).2)

/-- All reaction events of a message list, flattened to
`(emoji, reactor)` pairs in traversal order. -/
def reactionEvents (msgs : List Message) : List (String × String) :=
  msgs.flatMap (fun m =>
    m.reactions.flatMap (fun react =>
      react.from_when.map (fun fw => (react.emoji, fw.1))))

/-- Insertion into a sorted list, for `sortQ`. -/
def insertSorted (x : ℚ) : List ℚ → List ℚ
  | [] => [x]
  | y :: ys => if x ≤ y then x :: y :: ys else y :: insertSorted x ys

/-- Ascending sort on rationals (value-level behaviour of Python's
`sorted`). -/
def sortQ (xs : List ℚ) : List ℚ := xs.foldr insertSorted []

/-- `statistics.median` (and `np.median`): middle element of the
sorted list for odd length, average of the two middle elements for
even length. -/
def median (xs : List ℚ) : ℚ :=
  let s := sortQ xs
  let n := s.length
  if n % 2 = 1 then s.getD (n / 2) 0
  else (s.getD (n / 2 - 1) 0 + s.getD (n / 2) 0) / 2

/-- The per-bucket loop of `Chats.fig_waiting_times`: each input is a
`(chat name, sender, waiting-time list)` bucket; the loop keeps the
bucket's median iff `median < threshold_median`, appending the chat
name and the median to the `me` lists when the sender is `your_name`
and to the `them` median list otherwise.  Returns
`(chat_names, medians me, medians them)`. -/
def fig_waiting_times (buckets : List (String × String × List ℚ))
    (yourName : String) (thresholdMedian : ℚ) :
    List String × List ℚ × List ℚ :=
  buckets.foldl
    (fun acc b =>
      let mdn := median b.2.2
      let medianOk := mdn < thresholdMedian
      let isSelf := b.2.1 = yourName
      ((if isSelf ∧ medianOk then acc.1 ++ [b.1] else acc.1),
       (if isSelf ∧ medianOk then acc.2.1 ++ [mdn] else acc.2.1),
       (if ¬isSelf ∧ medianOk then acc.2.2 ++ [mdn] else acc.2.2)))
    ([], [], [])

/-- Arithmetic mean of a rational list (`np.mean`). -/
def mean (xs : List ℚ) : ℚ := xs.sum / xs.length

/-- Population variance (`np.std(xs) ** 2`, `ddof = 0`). -/
def popVar (xs : List ℚ) : ℚ :=
  ((xs.map (fun x => (x - mean xs) ^ 2)).sum) / xs.length

/-- `np.std` with its default `ddof = 0`: the population standard
deviation. -/
noncomputable def npStd (xs : List ℚ) : ℝ := Real.sqrt ((popVar xs : ℚ) : ℝ)

/-- The error-bar value of `Chats.fig_message_length_statistics`:
`se = 3 * stdev / np.sqrt(len(lengths))`. -/
noncomputable def standardError (xs : List ℚ) : ℝ :=
  3 * npStd xs / Real.sqrt (xs.length : ℝ)

/-- The ways the modelled part of `Chat.__init__` can raise. -/
inductive ChatError where
  | unsupportedShape
  | keyError
  | stopIteration
deriving DecidableEq, Repr

/-- Python string-keyed `dict` insert (insertion order, overwrite in
place). -/
def strDictInsert (m : List (String × String)) (k v : String) :
    List (String × String) :=
  if m.any (fun p => p.1 == k) then
    m.map (fun p => if p.1 == k then (k, v) else p)
  else
    m ++ [(k, v)]

/-- Python string-keyed `dict` lookup. -/
def strDictLookup (m : List (String × String)) (k : String) : Option String :=
  (m.find? (fun p => p.1 == k)).map Prod.snd

/-- The whole-chat JSON document: `{id, name, type, messages}`. -/
structure ChatData where
  id : Int
  type : String
  name : String
  messages : List Record
deriving Repr

/-- The `participant_id_map` comprehension of `Chat.__init__`: maps
each `from_id` found in any record (message or not) to that record's
`from` value. -/
def participantIdMap (data : ChatData) : List (String × String) :=
  data.messages.foldl
    (fun m r =>
      match r.fromId with
      | some fid => strDictInsert m fid r.from_
      | none => m)
    []

/-- The control flow of `Chat.__init__`: the personal-chat /
two-participant check, counterpart-name resolution
(`participant_id_map[f"user{id}"]`, whose failure is a `KeyError`),
message building, and the `next(...)` that derives `self.you`, whose
failure on an empty generator is an unhandled `StopIteration`.
Returns the derived `you` on success. -/
def chat_init (data : ChatData) : Except ChatError String :=
  let pmap := participantIdMap data
  if data.type ≠ "personal_chat" ∨ pmap.length ≠ 2 then
    .error .unsupportedShape
  else
    match strDictLookup pmap ("user" ++ toString data.id) with
    | none => .error .keyError
    | some updName =>
      let chatWith := updName
      match (build_messages data.messages).find? (fun m => m.from_ != chatWith) with
      | some m => .ok m.from_
      | none => .error .stopIteration

/-! ## Theorems -/

/-- A record whose `text` field is the empty string while its
`text_entities` carry a non-empty fragment. -/
def emptyTextRecord : Record :=
  { id := 1, type := "message", from_ := "A", fromId := some "user1",
    date := 0, edited := none, replyToMessageId := none,
    textStr := some "", textEntities := [{ type := "plain", text := "x" }],
    reactions := [] }

/-- C2, counterexample: on a record whose `text` field is the empty
string (hence not a non-empty string) and whose entity fragments
concatenate to `"x"`, `Message.from_dict` yields the literal empty
string, not the fragment concatenation the claim requires. -/
theorem from_dict_empty_string_counterexample :
    (Message.from_dict emptyTextRecord).text = "" ∧
    (¬ ∃ s, emptyTextRecord.textStr = some s ∧ s ≠ "") ∧
    String.join (emptyTextRecord.textEntities.map TextEntity.text) = "x" ∧
    (Message.from_dict emptyTextRecord).text ≠
      String.join (emptyTextRecord.textEntities.map TextEntity.text) := by
  refine ⟨rfl, ?_, rfl, by decide⟩
  rintro ⟨s, hs, hne⟩
  have : s = "" := by
    have h : emptyTextRecord.textStr = some "" := rfl
    rw [h] at hs
    exact (Option.some.injEq _ _).mp hs.symm
  exact hne this

/-- C2, amended: the flattened text equals the record's literal `text`
field whenever that field is a string — including the empty string —
and equals the concatenation of the `text` sub-fields of the ordered
`text_entities` list exactly when the `text` field is not a string. -/
theorem from_dict_text_flattening (r : Record) :
    (∀ s, r.textStr = some s → (Message.from_dict r).text = s) ∧
    (r.textStr = none →
      (Message.from_dict r).text =
        String.join (r.textEntities.map TextEntity.text)) := by
  constructor
  · intro s hs
    simp [Message.from_dict, hs]
  · intro h
    simp [Message.from_dict, h]

/-- A record whose `text` field is the string `"hello"`. -/
def literalTextRecord : Record :=
  { id := 2, type := "message", from_ := "A", fromId := some "user1",
    date := 0, edited := none, replyToMessageId := none,
    textStr := some "hello", textEntities := [], reactions := [] }

/-- A record whose `text` field is a list (non-string), with two
entity fragments. -/
def entityTextRecord : Record :=
  { id := 3, type := "message", from_ := "A", fromId := some "user1",
    date := 0, edited := none, replyToMessageId := none,
    textStr := none,
    textEntities := [{ type := "plain", text := "a" }, { type := "bold", text := "b" }],
    reactions := [] }

/-- Witness for C2's amended theorem at two concrete records. -/
theorem from_dict_text_flattening_witness :
    (Message.from_dict literalTextRecord).text = "hello" ∧
    (Message.from_dict entityTextRecord).text = "ab" :=
  ⟨(from_dict_text_flattening literalTextRecord).1 "hello" rfl,
   by rw [(from_dict_text_flattening entityTextRecord).2 rfl]; rfl⟩

/-- A two-message list that is not in chronological order:
the first message is 50 seconds after the second. -/
def outOfOrderMessages : List Message :=
  [{ id := 1, from_ := "A", text := "x", dt := 100 },
   { id := 2, from_ := "B", text := "y", dt := 50 }]

/-- C9: `get_waiting_times` differences consecutive pairs in list
order without sorting by timestamp, so a list that is out of
chronological order produces a negative waiting-time sample. -/
theorem waiting_times_negative_sample :
    get_waiting_times outOfOrderMessages "A" = [-50] ∧ (-50 : Int) < 0 := by
  constructor
  · rfl
  · decide

/-- The grouping loop of `Chat.groupby` deposits exactly the messages
whose key equals the bucket's key, in input order. -/
theorem groupby_eq_filter (keyfun : Message → Int) (msgs : List Message) (k : Int) :
    groupby keyfun msgs k = msgs.filter (fun m => keyfun m == k) := by
  suffices h : ∀ (l : List Message) (acc : Int → List Message),
      (l.foldl
        (fun grouped m => fun j =>
          if j = keyfun m then grouped j ++ [m] else grouped j)
        acc) k = acc k ++ l.filter (fun m => keyfun m == k) by
    simpa using h msgs (fun _ => [])
  intro l
  induction l with
  | nil => intro acc; simp
  | cons m ms ih =>
    intro acc
    simp only [List.foldl_cons, ih]
    by_cases hm : keyfun m = k
    · simp [hm, List.filter_cons, List.append_assoc]
    · have : ¬ k = keyfun m := fun h => hm h.symm
      simp [List.filter_cons, hm, this]

/-- The Monday property of the week key: the key is a Monday and the
message's own date lies within the following seven days. -/
theorem week_key_is_monday (m : Message) :
    weekday (week_key m) = 0 ∧
    week_key m ≤ dateOf m.dt ∧ dateOf m.dt ≤ week_key m + 6 := by
  unfold week_key weekday dateOf
  omega

/-- C5: `groupby "week"` assigns each message to the bucket keyed by
the date of the Monday of the message's week: every message lands in
the bucket of its own week key, every bucket key holding a message is
a Monday, and for every message of a bucket, bucket date ≤ message
date ≤ bucket date + 6 days. -/
theorem groupby_week_monday_buckets (msgs : List Message) :
    (∀ m ∈ msgs, m ∈ groupby_week msgs (week_key m)) ∧
    (∀ k, ∀ m ∈ groupby_week msgs k,
      weekday k = 0 ∧ k ≤ dateOf m.dt ∧ dateOf m.dt ≤ k + 6) := by
  constructor
  · intro m hm
    rw [groupby_week, groupby_eq_filter]
    simp [List.mem_filter, hm]
  · intro k m hm
    rw [groupby_week, groupby_eq_filter] at hm
    have hk : week_key m = k := by
      have := (List.mem_filter.mp hm).2
      simpa using this
    subst hk
    exact week_key_is_monday m

/-- A single message timestamped at the epoch (a Thursday). -/
def epochMessage : Message := { id := 1, from_ := "A", text := "x", dt := 0 }

/-- Witness for C5 at a one-message list: the message lands in the
bucket of day −3 (the Monday before the epoch), and that bucket
satisfies the Monday and 7-day-window properties. -/
theorem groupby_week_monday_buckets_witness :
    epochMessage ∈ groupby_week [epochMessage] (-3) ∧
    weekday (-3) = 0 ∧ (-3 : Int) ≤ dateOf epochMessage.dt ∧
      dateOf epochMessage.dt ≤ -3 + 6 := by
  have h1 := (groupby_week_monday_buckets [epochMessage]).1 epochMessage
    (by simp)
  have hk : week_key epochMessage = -3 := by decide
  rw [hk] at h1
  exact ⟨h1, (groupby_week_monday_buckets [epochMessage]).2 (-3) epochMessage h1⟩

/-- The waiting-time loop characterized per sender: sender `s`
receives exactly the time differences of the sender-switch boundaries
whose earlier message `s` sent, in list order. -/
theorem get_waiting_times_eq_filter (msgs : List Message) (s : String) :
    get_waiting_times msgs s =
      ((senderSwitchBoundaries msgs).filter (fun p => p.1.from_ == s)).map
        (fun p => p.2.dt - p.1.dt) := by
  rw [senderSwitchBoundaries, List.filter_filter]
  suffices h : ∀ (ps : List (Message × Message)) (acc : String → List Int),
      (ps.foldl
        (fun wt p =>
          if p.1.from_ ≠ p.2.from_ then
            fun t => if t = p.1.from_ then wt t ++ [p.2.dt - p.1.dt] else wt t
          else wt)
        acc) s =
        acc s ++ (ps.filter (fun p => p.1.from_ == s && p.1.from_ != p.2.from_)).map
          (fun p => p.2.dt - p.1.dt) by
    rw [get_waiting_times]
    rw [h (msgs.zip msgs.tail) (fun _ => [])]
    simp only [List.nil_append]
  intro ps
  induction ps with
  | nil => intro acc; simp
  | cons p ps ih =>
    intro acc
    simp only [List.foldl_cons]
    by_cases hne : p.1.from_ ≠ p.2.from_
    · simp only [if_pos hne]
      rw [ih]
      by_cases hs : s = p.1.from_
      · simp [hs, List.filter_cons, hne, List.append_assoc]
      · have hs' : ¬ p.1.from_ = s := fun h => hs h.symm
        simp [hs, List.filter_cons, hs']
    · simp only [if_neg hne]
      rw [ih]
      have heq : p.1.from_ = p.2.from_ := not_not.mp hne
      simp [List.filter_cons, heq]

/-- Sum of a pointwise sum of two maps. -/
theorem list_sum_map_add {κ : Type} (keys : List κ) (a b : κ → ℕ) :
    (keys.map (fun s => a s + b s)).sum = (keys.map a).sum + (keys.map b).sum := by
  induction keys with
  | nil => simp
  | cons k ks ih => simp [ih]; omega

/-- Over a duplicate-free key list containing `k`, the indicator of
`k` sums to one. -/
theorem list_sum_indicator {κ : Type} [DecidableEq κ] (keys : List κ)
    (hnd : keys.Nodup) (k : κ) (hk : k ∈ keys) :
    (keys.map (fun s => if k = s then 1 else 0)).sum = 1 := by
  induction keys with
  | nil => cases hk
  | cons y ys ih =>
    rcases List.mem_cons.mp hk with h | h
    · subst h
      have hnot : k ∉ ys := (List.nodup_cons.mp hnd).1
      have hz : (ys.map (fun s => if k = s then 1 else 0)).sum = 0 := by
        apply List.sum_eq_zero
        intro x hx
        rcases List.mem_map.mp hx with ⟨s, hs, rfl⟩
        have : ¬ k = s := fun h => hnot (h ▸ hs)
        simp [this]
      simp [hz]
    · have hnd' : ys.Nodup := (List.nodup_cons.mp hnd).2
      have hky : ¬ k = y := by
        rintro rfl
        exact (List.nodup_cons.mp hnd).1 h
      simp [hky, ih hnd' h]

/-- Partitioning a list's length over a duplicate-free covering key
list: the per-key filtered lengths sum to the total length. -/
theorem length_partition {α κ : Type} [DecidableEq κ] (f : α → κ) (l : List α)
    (keys : List κ) (hnd : keys.Nodup) (hcov : ∀ x ∈ l, f x ∈ keys) :
    (keys.map (fun s => (l.filter (fun x => f x == s)).length)).sum = l.length := by
  induction l with
  | nil => simp
  | cons x xs ih =>
    have hx : f x ∈ keys := hcov x (List.mem_cons_self x xs)
    have hxs : ∀ y ∈ xs, f y ∈ keys := fun y hy => hcov y (List.mem_cons_of_mem x hy)
    have hsplit : ∀ s : κ, ((x :: xs).filter (fun z => f z == s)).length =
        (if f x = s then 1 else 0) + (xs.filter (fun z => f z == s)).length := by
      intro s
      by_cases h : f x = s <;> simp [List.filter_cons, h] <;> omega
    calc (keys.map (fun s => ((x :: xs).filter (fun z => f z == s)).length)).sum
        = (keys.map (fun s =>
            (if f x = s then 1 else 0) + (xs.filter (fun z => f z == s)).length)).sum := by
          congr 1
          exact List.map_congr_left (fun s _ => hsplit s)
      _ = (keys.map (fun s => if f x = s then 1 else 0)).sum +
            (keys.map (fun s => (xs.filter (fun z => f z == s)).length)).sum :=
          list_sum_map_add keys _ _
      _ = 1 + xs.length := by rw [list_sum_indicator keys hnd (f x) hx, ih hxs]
      _ = (x :: xs).length := by simp [Nat.add_comm]

/-- The three-message round-trip example of the spec:
A at t0, B at t0 + 30 s, A at t0 + 90 s. -/
def roundTripMessages : List Message :=
  [{ id := 1, from_ := "A", text := "x", dt := 0 },
   { id := 2, from_ := "B", text := "y", dt := 30 },
   { id := 3, from_ := "A", text := "z", dt := 90 }]

/-- C3: `get_waiting_times` records one sample per adjacent pair with
differing senders — the elapsed seconds attributed to the earlier
sender — same-sender pairs contribute nothing, the per-sender totals
sum to the number of sender-switch boundaries, and the spec's
three-message example evaluates to A = [30], B = [60]. -/
theorem get_waiting_times_spec :
    (∀ (msgs : List Message) (s : String),
      get_waiting_times msgs s =
        ((senderSwitchBoundaries msgs).filter (fun p => p.1.from_ == s)).map
          (fun p => p.2.dt - p.1.dt)) ∧
    (∀ msgs : List Message,
      ((((msgs.zip msgs.tail).map (fun p => p.1.from_)).dedup).map
        (fun s => (get_waiting_times msgs s).length)).sum =
        (senderSwitchBoundaries msgs).length) ∧
    (get_waiting_times roundTripMessages "A" = [30] ∧
      get_waiting_times roundTripMessages "B" = [60]) := by
  refine ⟨get_waiting_times_eq_filter, ?_, by constructor <;> rfl⟩
  intro msgs
  have hmap : ∀ s : String, (get_waiting_times msgs s).length =
      ((senderSwitchBoundaries msgs).filter (fun p => p.1.from_ == s)).length := by
    intro s
    rw [get_waiting_times_eq_filter, List.length_map]
  calc ((((msgs.zip msgs.tail).map (fun p => p.1.from_)).dedup).map
          (fun s => (get_waiting_times msgs s).length)).sum
      = ((((msgs.zip msgs.tail).map (fun p => p.1.from_)).dedup).map
          (fun s => ((senderSwitchBoundaries msgs).filter
            (fun p => p.1.from_ == s)).length)).sum := by
        congr 1
        exact List.map_congr_left (fun s _ => hmap s)
    _ = (senderSwitchBoundaries msgs).length := by
        refine length_partition (fun p => p.1.from_) (senderSwitchBoundaries msgs)
          (((msgs.zip msgs.tail).map (fun p => p.1.from_)).dedup)
          (List.nodup_dedup _) ?_
        intro p hp
        rw [List.mem_dedup]
        have hzip : p ∈ msgs.zip msgs.tail :=
          List.mem_of_mem_filter hp
        exact List.mem_map_of_mem (fun q => q.1.from_) hzip

/-- C6, counterexample: a bucket whose median waiting time equals the
threshold (so does not exceed it) is nevertheless excluded, because
the code keeps a bucket only when `median < threshold` strictly. -/
theorem fig_waiting_times_threshold_counterexample :
    median [(100 : ℚ)] = 100 ∧ ¬ ((100 : ℚ) > 100) ∧
    fig_waiting_times [("c", "me", [(100 : ℚ)])] "me" 100 = ([], [], []) := by
  refine ⟨?_, by norm_num, ?_⟩
  · simp [median, sortQ, insertSorted]
  · simp [fig_waiting_times, median, sortQ, insertSorted]

/-- C6, amended: in the cross-chat median waiting-time aggregate a
`(chat, sender)` bucket is excluded exactly when its median waiting
time is greater than or equal to the threshold (kept iff strictly
below it); kept medians are carried over unmodified, never clipped. -/
theorem fig_waiting_times_threshold (buckets : List (String × String × List ℚ))
    (yourName : String) (thresholdMedian : ℚ) :
    (fig_waiting_times buckets yourName thresholdMedian).2.1 =
      buckets.filterMap (fun b =>
        if b.2.1 = yourName ∧ median b.2.2 < thresholdMedian
        then some (median b.2.2) else none) ∧
    (fig_waiting_times buckets yourName thresholdMedian).2.2 =
      buckets.filterMap (fun b =>
        if ¬ b.2.1 = yourName ∧ median b.2.2 < thresholdMedian
        then some (median b.2.2) else none) ∧
    (fig_waiting_times buckets yourName thresholdMedian).1 =
      buckets.filterMap (fun b =>
        if b.2.1 = yourName ∧ median b.2.2 < thresholdMedian
        then some b.1 else none) := by
  suffices h : ∀ (bs : List (String × String × List ℚ))
      (acc : List String × List ℚ × List ℚ),
      bs.foldl
        (fun acc b =>
          let mdn := median b.2.2
          let medianOk := mdn < thresholdMedian
          let isSelf := b.2.1 = yourName
          ((if isSelf ∧ medianOk then acc.1 ++ [b.1] else acc.1),
           (if isSelf ∧ medianOk then acc.2.1 ++ [mdn] else acc.2.1),
           (if ¬isSelf ∧ medianOk then acc.2.2 ++ [mdn] else acc.2.2)))
        acc =
      (acc.1 ++ bs.filterMap (fun b =>
          if b.2.1 = yourName ∧ median b.2.2 < thresholdMedian
          then some b.1 else none),
       acc.2.1 ++ bs.filterMap (fun b =>
          if b.2.1 = yourName ∧ median b.2.2 < thresholdMedian
          then some (median b.2.2) else none),
       acc.2.2 ++ bs.filterMap (fun b =>
          if ¬ b.2.1 = yourName ∧ median b.2.2 < thresholdMedian
          then some (median b.2.2) else none)) by
    rw [fig_waiting_times, h buckets ([], [], [])]
    simp
  intro bs
  induction bs with
  | nil => intro acc; simp
  | cons b bs ih =>
    intro acc
    simp only [List.foldl_cons, ih, List.filterMap_cons]
    by_cases hself : b.2.1 = yourName <;> by_cases hok : median b.2.2 < thresholdMedian <;>
      simp [hself, hok, List.append_assoc]

/-- One step of the reaction-event partitioning loop, as a function of
the flattened `(emoji, reactor)` event. -/
def evStep (you : String) (acc : String × String) (e : String × String) :
    String × String :=
  if e.2 = you then (acc.1 ++ e.1, acc.2) else (acc.1, acc.2 ++ e.1)

/-- The nested reaction loops of `Chat.get_reaction_counters` are the
single fold of `evStep` over the flattened reaction events. -/
theorem reactionStrings_eq_foldl (msgs : List Message) (you : String) :
    reactionStrings msgs you = (reactionEvents msgs).foldl (evStep you) ("", "") := by
  suffices h : ∀ (l : List Message) (acc : String × String),
      l.foldl
        (fun acc m =>
          m.reactions.foldl
            (fun acc2 react =>
              react.from_when.foldl
                (fun acc3 fw =>
                  if fw.1 = you then (acc3.1 ++ react.emoji, acc3.2)
                  else (acc3.1, acc3.2 ++ react.emoji))
                acc2)
            acc)
        acc =
      (l.flatMap (fun m =>
        m.reactions.flatMap (fun react =>
          react.from_when.map (fun fw => (react.emoji, fw.1))))).foldl
        (evStep you) acc by
    exact h msgs ("", "")
  have hreact : ∀ (react : Reaction) (acc : String × String),
      react.from_when.foldl
        (fun acc3 fw =>
          if fw.1 = you then (acc3.1 ++ react.emoji, acc3.2)
          else (acc3.1, acc3.2 ++ react.emoji))
        acc =
      (react.from_when.map (fun fw => (react.emoji, fw.1))).foldl (evStep you) acc := by
    intro react acc
    rw [List.foldl_map]
    rfl
  have hmsg : ∀ (reacts : List Reaction) (acc : String × String),
      reacts.foldl
        (fun acc2 react =>
          react.from_when.foldl
            (fun acc3 fw =>
              if fw.1 = you then (acc3.1 ++ react.emoji, acc3.2)
              else (acc3.1, acc3.2 ++ react.emoji))
            acc2)
        acc =
      (reacts.flatMap (fun react =>
        react.from_when.map (fun fw => (react.emoji, fw.1)))).foldl (evStep you) acc := by
    intro reacts
    induction reacts with
    | nil => intro acc; rfl
    | cons react reacts ih =>
      intro acc
      simp only [List.foldl_cons, List.flatMap_cons, List.foldl_append]
      rw [hreact, ih]
  intro l
  induction l with
  | nil => intro acc; rfl
  | cons m ms ih =>
    intro acc
    simp only [List.foldl_cons, List.flatMap_cons, List.foldl_append]
    rw [hmsg, ih]

/-- The `evStep` fold splits the events by reactor and concatenates
their emoji strings (stated on the underlying character lists). -/
theorem evStep_foldl_data (you : String) :
    ∀ (events : List (String × String)) (acc : String × String),
      ((events.foldl (evStep you) acc).1.data =
        acc.1.data ++ ((events.filter (fun e => e.2 == you)).map
          (fun e => e.1.data)).flatten) ∧
      ((events.foldl (evStep you) acc).2.data =
        acc.2.data ++ ((events.filter (fun e => e.2 != you)).map
          (fun e => e.1.data)).flatten) := by
  intro events
  induction events with
  | nil => intro acc; simp
  | cons e evs ih =>
    intro acc
    simp only [List.foldl_cons]
    by_cases hy : e.2 = you
    · have hstep : evStep you acc e = (acc.1 ++ e.1, acc.2) := by
        simp [evStep, hy]
      rw [hstep]
      constructor
      · rw [(ih _).1]
        simp [List.filter_cons, hy, String.data_append, List.append_assoc]
      · rw [(ih _).2]
        simp [List.filter_cons, hy]
    · have hstep : evStep you acc e = (acc.1, acc.2 ++ e.1) := by
        simp [evStep, hy]
      rw [hstep]
      constructor
      · rw [(ih _).1]
        simp [List.filter_cons, hy]
      · rw [(ih _).2]
        simp [List.filter_cons, hy, String.data_append, List.append_assoc]

/-- Counting a character in the flattening of one-character blocks
counts the blocks that are exactly that character. -/
theorem count_flatten_single (c : Char) :
    ∀ L : List (List Char), (∀ x ∈ L, x.length = 1) →
      ((L.flatten).filter (fun d => d == c)).length =
        (L.filter (fun x => x == [c])).length := by
  intro L
  induction L with
  | nil => intro _; rfl
  | cons x L ih =>
    intro h
    obtain ⟨d, rfl⟩ : ∃ d, x = [d] := by
      have hx : x.length = 1 := h x (List.mem_cons_self x L)
      match x, hx with
      | [d], _ => exact ⟨d, rfl⟩
    have hL : ∀ y ∈ L, y.length = 1 := fun y hy => h y (List.mem_cons_of_mem _ hy)
    rw [List.flatten_cons, List.filter_append, List.length_append, ih hL,
      List.filter_cons]
    by_cases hd : d = c
    · subst hd
      simp [Nat.add_comm]
    · have h2 : (([d] : List Char) == [c]) = false := by simp [hd]
      simp [List.filter_cons, hd, h2]

/-- `String.singleton` equalities mirror character equalities. -/
theorem singleton_eq_singleton_iff (a b : Char) :
    String.singleton a = String.singleton b ↔ a = b := by
  constructor
  · intro h
    have := congrArg String.data h
    simpa [String.singleton] using this
  · rintro rfl; rfl

/-- A string equals `String.singleton c` iff its character list is
`[c]`. -/
theorem eq_singleton_iff_data (s : String) (c : Char) :
    s = String.singleton c ↔ s.data = [c] := by
  constructor
  · rintro rfl; rfl
  · intro h
    apply String.ext
    rw [h]
    rfl

/-- Counting one character across the concatenated emojis of the
events selected by `P` counts the selected events carrying exactly
that emoji, provided every emoji is a single character. -/
theorem count_blocks (events : List (String × String)) (P : String × String → Bool)
    (hev : ∀ e ∈ events, e.1.length = 1) (c : Char) :
    ((((events.filter P).map (fun e => e.1.data)).flatten).filter
      (fun d => d == c)).length =
      (events.filter (fun e => P e && e.1 == String.singleton c)).length := by
  rw [count_flatten_single c _ ?hlen]
  case hlen =>
    intro x hx
    rcases List.mem_map.mp hx with ⟨e, he, rfl⟩
    exact hev e (List.mem_of_mem_filter he)
  rw [List.filter_map, List.length_map, List.filter_filter]
  refine congrArg List.length (List.filter_congr ?_)
  intro e _
  have h1 : ((fun e : String × String => e.1.data) e == [c]) =
      (e.1 == String.singleton c) := by
    rw [Bool.eq_iff_iff]
    simp only [beq_iff_eq]
    exact (eq_singleton_iff_data e.1 c).symm
  rw [Function.comp_apply] at *
  rw [h1, Bool.and_comm]

/-- Every flattened reaction event of a message list inherits the
single-character-emoji property from the messages' reactions. -/
theorem reactionEvents_emoji_length (msgs : List Message)
    (h : ∀ m ∈ msgs, ∀ react ∈ m.reactions, react.emoji.length = 1) :
    ∀ e ∈ reactionEvents msgs, e.1.length = 1 := by
  intro e he
  rcases List.mem_flatMap.mp he with ⟨m, hm, he2⟩
  rcases List.mem_flatMap.mp he2 with ⟨react, hreact, he3⟩
  rcases List.mem_map.mp he3 with ⟨fw, _, rfl⟩
  exact h m hm react hreact

/-- C4, amended: when every reaction emoji is a single character,
`get_reaction_counters` partitions every reaction event by whether the
reactor equals the chat's self identity, and each emoji's count on
each side equals the number of reaction events carrying that emoji for
that side.  (Without the single-character restriction the claim fails:
the counters count characters of the concatenated emoji strings, see
the counterexample.) -/
theorem get_reaction_counters_single_char (msgs : List Message) (you : String)
    (h : ∀ m ∈ msgs, ∀ react ∈ m.reactions, react.emoji.length = 1) (c : Char) :
    (get_reaction_counters msgs you).1 (String.singleton c) =
      ((reactionEvents msgs).filter
        (fun e => e.2 == you && e.1 == String.singleton c)).length ∧
    (get_reaction_counters msgs you).2 (String.singleton c) =
      ((reactionEvents msgs).filter
        (fun e => e.2 != you && e.1 == String.singleton c)).length := by
  have hev := reactionEvents_emoji_length msgs h
  have hpred : ∀ (l : List Char),
      l.filter (fun d => String.singleton d == String.singleton c) =
      l.filter (fun d => d == c) := by
    intro l
    refine List.filter_congr ?_
    intro d _
    rw [Bool.eq_iff_iff]
    simp only [beq_iff_eq]
    exact singleton_eq_singleton_iff d c
  constructor
  · show counter (reactionStrings msgs you).1 (String.singleton c) = _
    rw [counter, show (reactionStrings msgs you).1.toList =
      (reactionStrings msgs you).1.data from rfl, hpred]
    rw [reactionStrings_eq_foldl]
    rw [(evStep_foldl_data you (reactionEvents msgs) ("", "")).1]
    rw [show ("" : String).data = [] from rfl, List.nil_append]
    exact count_blocks (reactionEvents msgs) (fun e => e.2 == you) hev c
  · show counter (reactionStrings msgs you).2 (String.singleton c) = _
    rw [counter, show (reactionStrings msgs you).2.toList =
      (reactionStrings msgs you).2.data from rfl, hpred]
    rw [reactionStrings_eq_foldl]
    rw [(evStep_foldl_data you (reactionEvents msgs) ("", "")).2]
    rw [show ("" : String).data = [] from rfl, List.nil_append]
    exact count_blocks (reactionEvents msgs) (fun e => e.2 != you) hev c

/-- A message carrying two single-character reactions: `"a"` reacted
by `"Y"` and `"Z"`, and `"b"` reacted by `"Y"`. -/
def reactedMessage : Message :=
  { id := 1, from_ := "B", text := "x", dt := 0,
    reactions := [{ emoji := "a", from_when := [("Y", 0), ("Z", 5)] },
                  { emoji := "b", from_when := [("Y", 7)] }] }

/-- Witness for C4's amended theorem at a concrete chat with
single-character emojis, evaluated at the emoji `'a'`. -/
theorem get_reaction_counters_single_char_witness :
    (get_reaction_counters [reactedMessage] "Y").1 (String.singleton 'a') =
      ((reactionEvents [reactedMessage]).filter
        (fun e => e.2 == "Y" && e.1 == String.singleton 'a')).length ∧
    (get_reaction_counters [reactedMessage] "Y").2 (String.singleton 'a') =
      ((reactionEvents [reactedMessage]).filter
        (fun e => e.2 != "Y" && e.1 == String.singleton 'a')).length :=
  get_reaction_counters_single_char [reactedMessage] "Y" (by decide) 'a'

/-- A message carrying a reaction whose emoji is the two-character
string `"ab"` (standing for a multi-codepoint emoji). -/
def multiCharReactedMessage : Message :=
  { id := 1, from_ := "B", text := "x", dt := 0,
    reactions := [{ emoji := "ab", from_when := [("Y", 0)] }] }

/-- C4, counterexample: one reaction event by the self identity whose
emoji is the two-character string `"ab"`; the self-side counter maps
`"ab"` to 0 (it counts single characters of the concatenation), while
the claim requires the count of the event's emoji to be 1. -/
theorem get_reaction_counters_counterexample :
    reactionEvents [multiCharReactedMessage] = [("ab", "Y")] ∧
    ((reactionEvents [multiCharReactedMessage]).filter
      (fun e => e.2 == "Y" && e.1 == "ab")).length = 1 ∧
    (get_reaction_counters [multiCharReactedMessage] "Y").1 "ab" = 0 := by
  refine ⟨rfl, rfl, ?_⟩
  decide

/-- Membership after a `dict` insert: either an old entry or the
inserted pair. -/
theorem dictInsert_mem {m : List (Int × Message)} {k : Int} {v : Message}
    {p : Int × Message} (hp : p ∈ dictInsert m k v) : p ∈ m ∨ p = (k, v) := by
  rw [dictInsert] at hp
  by_cases hany : m.any (fun q => q.1 == k)
  · rw [if_pos hany] at hp
    rcases List.mem_map.mp hp with ⟨q, hq, rfl⟩
    by_cases hk : q.1 == k
    · right; simp [hk]
    · left; simpa [hk] using hq
  · rw [if_neg hany] at hp
    rcases List.mem_append.mp hp with h | h
    · exact Or.inl h
    · exact Or.inr (List.mem_singleton.mp h)

/-- Every value of the parsed message map has an uninstalled reply
reference: `Message.from_dict` always sets `reply_to` to `None`. -/
theorem buildMap_replyTo_none (records : List Record) :
    ∀ p ∈ buildMap records, p.2.replyTo = none := by
  rw [buildMap]
  suffices h : ∀ (rs : List Record) (init : List (Int × Message)),
      (∀ p ∈ init, p.2.replyTo = none) →
      ∀ p ∈ rs.foldl
        (fun m r =>
          let msg := Message.from_dict r
          dictInsert m msg.id msg) init, p.2.replyTo = none by
    exact h _ [] (by intro p hp; cases hp)
  intro rs
  induction rs with
  | nil => intro init hinit; exact hinit
  | cons r rs ih =>
    intro init hinit
    refine ih _ ?_
    intro p hp
    rcases dictInsert_mem hp with h | rfl
    · exact hinit p h
    · rfl

/-- Reply resolution never changes the retained reply-target id. -/
theorem resolveReply_replyToId (m : List (Int × Message)) (msg : Message) :
    (resolveReply m msg).replyToId = msg.replyToId := by
  rw [resolveReply]
  split
  · rfl
  · split
    · simp
    · rfl

/-- C7: a message whose reply-target id matches no parsed message of
the chat keeps the reply-target id, keeps the resolved reference
unset, and no error is raised (the resolution map is total); each
message's resolution depends only on its own reply-target id and the
shared map, so a dangling reference leaves every other message's
resolution — installed exactly when the target id is present —
untouched. -/
theorem build_messages_dangling_reply (records : List Record) :
    ((build_messages records).map Message.replyToId =
      ((buildMap records).map Prod.snd).map Message.replyToId) ∧
    ∀ msg ∈ build_messages records, ∀ i, msg.replyToId = some i →
      (dictGet (buildMap records) i = none → msg.replyTo = none) ∧
      (∀ tgt, dictGet (buildMap records) i = some tgt → msg.replyTo = some i) := by
  constructor
  · rw [build_messages]
    simp only [List.map_map]
    refine List.map_congr_left ?_
    intro p _
    simp only [Function.comp_apply]
    exact resolveReply_replyToId (buildMap records) p.2
  · intro msg hmsg i hid
    rw [build_messages] at hmsg
    rcases List.mem_map.mp hmsg with ⟨m0, hm0, rfl⟩
    rcases List.mem_map.mp hm0 with ⟨p, hp, rfl⟩
    have hz : p.2.replyTo = none := buildMap_replyTo_none records p hp
    have hid0 : p.2.replyToId = some i := by
      rw [resolveReply_replyToId] at hid
      exact hid
    constructor
    · intro hget
      simp only [resolveReply, hid0, hget]
      exact hz
    · intro tgt hget
      simp only [resolveReply, hid0, hget]

/-- A single record replying to the absent id 99. -/
def danglingRecord : Record :=
  { id := 1, type := "message", from_ := "A", fromId := some "user1",
    date := 0, edited := none, replyToMessageId := some 99,
    textStr := some "hi", textEntities := [], reactions := [] }

/-- The parsed dangling-reply message: id retained, reference unset. -/
def danglingMessage : Message := Message.from_dict danglingRecord

/-- Witness for C7 at a one-record chat whose only message replies to
the absent id 99: the id is retained and the reference stays unset. -/
theorem build_messages_dangling_reply_witness :
    danglingMessage ∈ build_messages [danglingRecord] ∧
    danglingMessage.replyToId = some 99 ∧
    danglingMessage.replyTo = none := by
  have hmem : danglingMessage ∈ build_messages [danglingRecord] := by
    have : build_messages [danglingRecord] = [danglingMessage] := by rfl
    rw [this]
    exact List.mem_singleton.mpr rfl
  refine ⟨hmem, rfl, ?_⟩
  exact ((build_messages_dangling_reply [danglingRecord]).2 danglingMessage hmem
    99 rfl).1 rfl

/-- C10: when a chat export passes the personal-chat and
two-participant checks and the counterpart name resolves, but no
parsed message has a sender different from the resolved counterpart,
`Chat.__init__` fails deriving the self identity: the `next(...)`
generator is empty, so the failure is the unhandled `StopIteration`,
not the unsupported-shape error. -/
theorem chat_init_stop_iteration (data : ChatData)
    (htype : data.type = "personal_chat")
    (hlen : (participantIdMap data).length = 2)
    (updName : String)
    (hlook : strDictLookup (participantIdMap data)
      ("user" ++ toString data.id) = some updName)
    (hall : ∀ m ∈ build_messages data.messages, m.from_ = updName) :
    chat_init data = .error .stopIteration ∧
    (ChatError.stopIteration ≠ ChatError.unsupportedShape) := by
  refine ⟨?_, by decide⟩
  rw [chat_init]
  have hcond : ¬ (data.type ≠ "personal_chat" ∨ (participantIdMap data).length ≠ 2) := by
    push_neg
    exact ⟨htype, hlen⟩
  rw [if_neg hcond]
  simp only [hlook]
  have hfind : (build_messages data.messages).find?
      (fun m => m.from_ != updName) = none := by
    rw [List.find?_eq_none]
    intro m hm
    simp [hall m hm]
  simp only [hfind]

/-- A chat export whose only message-type record was sent by the
counterpart; the second participant id comes from a non-message
(service) record, so the two-participant check passes. -/
def counterpartOnlyChat : ChatData :=
  { id := 1, type := "personal_chat", name := "B",
    messages :=
      [{ id := 10, type := "message", from_ := "B", fromId := some "user1",
         date := 0, edited := none, replyToMessageId := none,
         textStr := some "hi", textEntities := [], reactions := [] },
       { id := 11, type := "service", from_ := "A", fromId := some "user2",
         date := 5, edited := none, replyToMessageId := none,
         textStr := some "", textEntities := [], reactions := [] }] }

/-- Witness for C10 at the concrete counterpart-only export. -/
theorem chat_init_stop_iteration_witness :
    chat_init counterpartOnlyChat = .error .stopIteration :=
  (chat_init_stop_iteration counterpartOnlyChat rfl (by decide) "B" (by decide)
    (by decide)).1


/-- The message map after `_build_messages` has run: in Python the map
values are the very objects that were mutated when the reply
references were installed, so the object graph `reply_chain` traverses
is the map with every value resolved. -/
def resolvedMap (records : List Record) : List (Int × Message) :=
  (buildMap records).map (fun p => (p.1, resolveReply (buildMap records) p.2))

/-- Two message records each replying to the other: a malformed export
with a cyclic reply graph. -/
def cycleRecords : List Record :=
  [{ id := 1, type := "message", from_ := "A", fromId := some "user1",
     date := 0, edited := none, replyToMessageId := some 2,
     textStr := some "first", textEntities := [], reactions := [] },
   { id := 2, type := "message", from_ := "B", fromId := some "user2",
     date := 5, edited := none, replyToMessageId := some 1,
     textStr := some "second", textEntities := [], reactions := [] }]

/-- The first parsed message of the cycle, with its reply reference
installed (both targets exist, so both references resolve). -/
def cycleMsg1 : Message :=
  { id := 1, from_ := "A", text := "first", dt := 0,
    replyToId := some 2, replyTo := some 2 }

/-- The second parsed message of the cycle. -/
def cycleMsg2 : Message :=
  { id := 2, from_ := "B", text := "second", dt := 5,
    replyToId := some 1, replyTo := some 1 }

/-- C1: on the two-record cyclic export, `_build_messages` installs
both reply references, producing a reply cycle, and `reply_chain` on
either resulting message exhausts every finite recursion bound — the
traversal never completes and no data error is detected: the source
has no cycle guard, contradicting the claim that a cycle is raised as
a fatal data error instead of unbounded recursion. -/
theorem reply_chain_cycle_diverges :
    build_messages cycleRecords = [cycleMsg1, cycleMsg2] ∧
    ∀ fuel : Nat,
      reply_chain (dictGet (resolvedMap cycleRecords)) fuel cycleMsg1 = none ∧
      reply_chain (dictGet (resolvedMap cycleRecords)) fuel cycleMsg2 = none := by
  have hbuild : build_messages cycleRecords = [cycleMsg1, cycleMsg2] := by decide
  have hget2 : dictGet (resolvedMap cycleRecords) 2 = some cycleMsg2 := by decide
  have hget1 : dictGet (resolvedMap cycleRecords) 1 = some cycleMsg1 := by decide
  refine ⟨hbuild, ?_⟩
  intro fuel
  induction fuel with
  | zero => exact ⟨rfl, rfl⟩
  | succ n ih =>
    constructor
    · show reply_chain (dictGet (resolvedMap cycleRecords)) (n + 1) cycleMsg1 = none
      rw [reply_chain]
      simp only [show cycleMsg1.replyTo = some 2 from rfl, hget2, ih.2]
      rfl
    · show reply_chain (dictGet (resolvedMap cycleRecords)) (n + 1) cycleMsg2 = none
      rw [reply_chain]
      simp only [show cycleMsg2.replyTo = some 1 from rfl, hget1, ih.1]
      rfl

/-- C8: the error bar of `Chats.fig_message_length_statistics` is
exactly `3 * np.std(lengths) / sqrt(n)` with the population standard
deviation; on self-message lengths [4, 6, 8] the median is 6, the
population variance is 8/3 (stdev ≈ 1.63), and the standard error is
`3 * sqrt(8/3) / sqrt 3 = sqrt 8 ≈ 2.83`. -/
theorem message_length_statistics_spec :
    median [(4 : ℚ), 6, 8] = 6 ∧
    popVar [(4 : ℚ), 6, 8] = 8 / 3 ∧
    npStd [(4 : ℚ), 6, 8] = Real.sqrt (8 / 3) ∧
    standardError [(4 : ℚ), 6, 8] = 3 * Real.sqrt (8 / 3) / Real.sqrt 3 ∧
    standardError [(4 : ℚ), 6, 8] = Real.sqrt 8 ∧
    (1.63 < npStd [(4 : ℚ), 6, 8] ∧ npStd [(4 : ℚ), 6, 8] < 1.64) ∧
    (2.82 < standardError [(4 : ℚ), 6, 8] ∧ standardError [(4 : ℚ), 6, 8] < 2.83) := by
  have hmedian : median [(4 : ℚ), 6, 8] = 6 := by
    norm_num [median, sortQ, insertSorted]
  have hvar : popVar [(4 : ℚ), 6, 8] = 8 / 3 := by
    norm_num [popVar, mean]
  have hstd : npStd [(4 : ℚ), 6, 8] = Real.sqrt (8 / 3) := by
    rw [npStd, hvar]
    norm_num
  have hse : standardError [(4 : ℚ), 6, 8] = 3 * Real.sqrt (8 / 3) / Real.sqrt 3 := by
    rw [standardError, hstd]
    norm_num
  have hsqrt8 : standardError [(4 : ℚ), 6, 8] = Real.sqrt 8 := by
    rw [hse, Real.sqrt_div (by norm_num : (0 : ℝ) ≤ 8) 3]
    have hss : Real.sqrt 3 * Real.sqrt 3 = 3 :=
      Real.mul_self_sqrt (by norm_num)
    have h3ne : Real.sqrt 3 ≠ 0 := by
      have : (0 : ℝ) < Real.sqrt 3 := Real.sqrt_pos.mpr (by norm_num)
      exact ne_of_gt this
    field_simp
  have hstd_lb : (1.63 : ℝ) < npStd [(4 : ℚ), 6, 8] := by
    rw [hstd]
    exact (Real.lt_sqrt (by norm_num)).mpr (by norm_num)
  have hstd_ub : npStd [(4 : ℚ), 6, 8] < 1.64 := by
    rw [hstd]
    exact (Real.sqrt_lt' (by norm_num)).mpr (by norm_num)
  have hse_lb : (2.82 : ℝ) < standardError [(4 : ℚ), 6, 8] := by
    rw [hsqrt8]
    exact (Real.lt_sqrt (by norm_num)).mpr (by norm_num)
  have hse_ub : standardError [(4 : ℚ), 6, 8] < 2.83 := by
    rw [hsqrt8]
    exact (Real.sqrt_lt' (by norm_num)).mpr (by norm_num)
  exact ⟨hmedian, hvar, hstd, hse, hsqrt8, ⟨hstd_lb, hstd_ub⟩, hse_lb, hse_ub⟩
